import Mathlib

/-!
Verification of the hybrid recommendation core of the Spotal backend
(`recommendations/services/*.py`) against its natural-language specification.

The Python services are shallowly embedded: pure computations become Lean
functions over `List` and `ℚ`; the Django ORM tables become explicit list-valued
fields of a `DB` record; external collaborators (the OpenAI embedding provider,
the Google place search, GPT summarisation) are abstracted as explicit function
or list parameters, since their code is not part of this repository's core.
Python floats are modelled as rationals; the only non-rational operation,
`x ** 0.5` (square root, also used by `np.linalg.norm`), is passed in as an
uninterpreted function parameter `sqrt : ℚ → ℚ`, which is sound because every
property proved here holds for all interpretations of `sqrt` (or is proved for
a concrete instantiation in counterexamples).
-/

namespace Spotal

/-- Modelled from the spec: §3 data model, `Place` (the `recommendations.models`
module itself is not part of the sources; field names follow the spec and the
accesses made by the services). Only the fields read by the embedded services
are kept. -/
structure Place where
  shopId : Nat
  name : String
  address : String
  emotions : List String
  location : Option String
  googlePlaceId : Option String
deriving DecidableEq, Repr, Inhabited

/-- Modelled from the spec: §3 data model, `Embedding` — owned 1:1 by a Place,
holding the embedding vector. -/
structure PlaceEmbedding where
  place : Place
  vector : List ℚ
deriving DecidableEq, Repr, Inhabited

/-- Modelled from the spec: §3 data model, `SavedPlace` — association of a user
to a place with a `rec` pipeline discriminator. The linked shop is stored
inline (mirroring `select_related('shop')` accesses). The source field `rec`
is called `recKind` here because `rec` is reserved for Lean recursors. -/
structure SavedPlace where
  userId : Nat
  shop : Place
  recKind : Nat
deriving DecidableEq, Repr, Inhabited

/-- The database state visible to one recommendation call: the `Place`,
`PlaceEmbedding` and `SavedPlace` tables, and the set of existing user ids
(used by the `User.objects.get` lookups). -/
structure DB where
  places : List Place
  embeddings : List PlaceEmbedding
  savedPlaces : List SavedPlace
  users : List Nat
deriving Repr, Inhabited

/-- Python truthiness of an `Optional[int]` id (`if user_id:`): `None` and `0`
are falsy. -/
def pyTruthyId : Option Nat → Bool
  | none => false
  | some u => u != 0

/-- Substring test on character lists: `needle` occurs contiguously in `hay`
(the semantics of Python `in` on strings). -/
def listContainsSub (hay needle : List Char) : Bool :=
  (List.range (hay.length + 1)).any fun i => needle.isPrefixOf (hay.drop i)

/-- Django `field__icontains=query`: case-insensitive containment of `query`
in `field`. -/
def icontains (field query : String) : Bool :=
  listContainsSub (field.toList.map Char.toLower) (query.toList.map Char.toLower)

/-! Embedding service (`embedding_service.py`). -/

/-- Function `cosine_similarity` of `embedding_service.py`. The early guard
returns `0.0` for empty or length-mismatched vectors; the norms and the dot
product are accumulated over `zip(vec_a, vec_b)`; a zero norm also yields
`0.0`; otherwise `dot / ((norm_a ** 0.5) * (norm_b ** 0.5))`, with `** 0.5`
abstracted as the `sqrt` parameter. -/
def cosine_similarity (sqrt : ℚ → ℚ) (vecA vecB : List ℚ) : ℚ :=
  if vecA.isEmpty || vecB.isEmpty || (vecA.length != vecB.length) then 0
  else
    let pairs := vecA.zip vecB
    let dot := (pairs.map fun p => p.1 * p.2).sum
    let normA := (pairs.map fun p => p.1 * p.1).sum
    let normB := (pairs.map fun p => p.2 * p.2).sum
    if normA = 0 ∨ normB = 0 then 0
    else dot / (sqrt normA * sqrt normB)

/-! RAG recommendation service (`rag_service.py`). -/

/-- Rows of `SavedPlace.objects.filter(user=user)` in table order. -/
def savedForUser (db : DB) (u : Nat) : List SavedPlace :=
  db.savedPlaces.filter fun s => s.userId == u

/-- One `defaultdict[int]` increment: counts are kept as an association list
in first-occurrence order, matching Python dict insertion order. -/
def bump (tally : List (String × Nat)) (key : String) : List (String × Nat) :=
  if tally.any fun p => p.1 == key then
    tally.map fun p => if p.1 == key then (p.1, p.2 + 1) else p
  else tally ++ [(key, 1)]

/-- Tally of emotion names over the shops of a list of saved places
(`emotion_counts` in `build_user_context`). -/
def emotionCounts (saved : List SavedPlace) : List (String × Nat) :=
  saved.foldl (fun t s => s.shop.emotions.foldl bump t) []

/-- Tally of location names over the shops of a list of saved places
(`location_counts` in `build_user_context`); shops without a location are
skipped. -/
def locationCounts (saved : List SavedPlace) : List (String × Nat) :=
  saved.foldl (fun t s =>
    match s.shop.location with
    | some loc => bump t loc
    | none => t) []

/-- Python `sorted(key=lambda x: x[1], reverse=True)`: a stable sort,
descending on the count; ties keep first-occurrence order. Modelled with the
stable `List.insertionSort`. -/
def sortByCountDesc (l : List (String × Nat)) : List (String × Nat) :=
  l.insertionSort fun a b => b.2 ≤ a.2

/-- Result of `RAGRecommendationService.build_user_context` (the fields the
ranking code reads). -/
structure UserContext where
  savedPlaces : List SavedPlace
  preferredEmotions : List (String × Nat)
  locationPreferences : List (String × Nat)
deriving Repr, Inhabited

/-- Method `build_user_context`: top-5 preferred emotions and top-3 preferred
locations by saved-place tally. -/
def build_user_context (db : DB) (u : Nat) : UserContext :=
  let saved := savedForUser db u
  { savedPlaces := saved
    preferredEmotions := (sortByCountDesc (emotionCounts saved)).take 5
    locationPreferences := (sortByCountDesc (locationCounts saved)).take 3 }

/-- Method `build_enhanced_query`: appends top preferred emotions and
locations to the query text. -/
def build_enhanced_query (db : DB) (query : String) (u : Nat) : String :=
  let ctx := build_user_context db u
  let parts := [query]
  let parts := if ctx.preferredEmotions.isEmpty then parts
    else parts ++ ["감정: " ++ String.intercalate ", " ((ctx.preferredEmotions.take 3).map Prod.fst)]
  let parts := if ctx.locationPreferences.isEmpty then parts
    else parts ++ ["지역: " ++ String.intercalate ", " ((ctx.locationPreferences.take 2).map Prod.fst)]
  String.intercalate " " parts

/-- Emotion-membership test of the Django filter
`place__emotions__name__in=emotion_filters` (after `.distinct()`): the place
has at least one emotion among the filter names. -/
def matchesEmotionFilter (p : Place) (filters : List String) : Bool :=
  p.emotions.any fun e => filters.contains e

/-- Location-membership test of `place__location__name__in=location_filters`:
the place has a location and its name is among the filter names. -/
def matchesLocationFilter (p : Place) (filters : List String) : Bool :=
  match p.location with
  | some loc => filters.contains loc
  | none => false

/-- Steps of `hybrid_search` that build `embeddings_query`: each filter is
applied only when its list is truthy (non-empty); the chained `.filter`
calls conjoin. -/
def filterEmbeddings (embs : List PlaceEmbedding)
    (emotionFilters locationFilters : List String) : List PlaceEmbedding :=
  let e1 := if emotionFilters.isEmpty then embs
    else embs.filter fun e => matchesEmotionFilter e.place emotionFilters
  if locationFilters.isEmpty then e1
  else e1.filter fun e => matchesLocationFilter e.place locationFilters

/-- Preferred-emotion weighting loop of `hybrid_search`: for each
`(emotion, count)` of the user context present on the place, add
`0.1 * (count / 10)`. -/
def emotionWeight (ctx : UserContext) (p : Place) : ℚ :=
  ctx.preferredEmotions.foldl
    (fun acc ec => if p.emotions.contains ec.1 then acc + (1 / 10) * ((ec.2 : ℚ) / 10) else acc) 0

/-- Preferred-location weighting loop of `hybrid_search`: when the place has a
location, for each `(location, count)` of the user context equal to it, add
`0.05 * (count / 10)`. -/
def locationWeight (ctx : UserContext) (p : Place) : ℚ :=
  match p.location with
  | some loc =>
    ctx.locationPreferences.foldl
      (fun acc lc => if loc == lc.1 then acc + (1 / 20) * ((lc.2 : ℚ) / 10) else acc) 0
  | none => 0

/-- Total additive user-preference weight applied to one candidate. -/
def userWeight (ctx : UserContext) (p : Place) : ℚ :=
  emotionWeight ctx p + locationWeight ctx p

/-- Python `results.sort(key=lambda x: x[1], reverse=True)` on the scored
pairs: stable descending sort on the score. -/
def sortPairsDesc (l : List (Place × ℚ)) : List (Place × ℚ) :=
  l.insertionSort fun a b => b.2 ≤ a.2

/-- Steps 3-6 of `RAGRecommendationService.hybrid_search`, after the query
text has been resolved to `queryVector` by the embedding collaborator:
filtering, per-candidate cosine similarity, user-preference weighting,
descending sort, and truncation to `topK`. -/
def hybrid_search_core (db : DB) (sqrt : ℚ → ℚ) (queryVector : List ℚ)
    (user : Option Nat) (emotionFilters locationFilters : List String)
    (topK : Nat) : List (Place × ℚ) :=
  let candidates := filterEmbeddings db.embeddings emotionFilters locationFilters
  let results := candidates.map fun emb =>
    let similarity := cosine_similarity sqrt queryVector emb.vector
    match user with
    | some u => (emb.place, similarity + userWeight (build_user_context db u) emb.place)
    | none => (emb.place, similarity)
  (sortPairsDesc results).take topK

/-- Full `hybrid_search` including steps 1-2: the `embed_text` collaborator
calls, which may fail with a provider error (modelled as `Except`); with a
user, the query is rewritten by `build_enhanced_query` and re-embedded. -/
def hybrid_search (db : DB) (sqrt : ℚ → ℚ)
    (embed : String → Except String (List ℚ)) (query : String)
    (user : Option Nat) (emotionFilters locationFilters : List String)
    (topK : Nat) : Except String (List (Place × ℚ)) := do
  let qv0 ← embed query
  let qv ←
    match user with
    | some u => embed (build_enhanced_query db query u)
    | none => pure qv0
  pure (hybrid_search_core db sqrt qv user emotionFilters locationFilters topK)

/-! Optimized RAG service (`optimized_rag_service.py`). -/

/-- Sum of squares of a vector (`np.linalg.norm` before the square root). -/
def sumSq (l : List ℚ) : ℚ := (l.map fun x => x * x).sum

/-- Dot product of two vectors of equal length (`np.dot` row-wise). -/
def dotList (a b : List ℚ) : ℚ := ((a.zip b).map fun p => p.1 * p.2).sum

/-- One row of the vectorised similarity computation of
`_batch_similarity_calculation`:
`np.dot(place_vectors, query_vec) / (np.linalg.norm(place_vectors, axis=1) * np.linalg.norm(query_vec))`.
No zero-norm or length guard is present in the source. -/
def batchCosine (sqrt : ℚ → ℚ) (v q : List ℚ) : ℚ :=
  dotList v q / (sqrt (sumSq v) * sqrt (sumSq q))

/-- Ascending `np.argsort`, modelled as a stable sort of the indices by
value (numpy leaves tie order unspecified; every concrete instance used
below has pairwise-distinct values, where all sorts agree). -/
def argsortAsc (xs : List ℚ) : List Nat :=
  (xs.enum.insertionSort fun a b => a.2 ≤ b.2).map Prod.fst

/-- Method `OptimizedRAGService._batch_similarity_calculation`: one batch
similarity pass, descending argsort, truncation to `topK`, and selection of
the strictly-positive-score entries (`if similarities[idx] > 0`). -/
def batch_similarity_calculation (sqrt : ℚ → ℚ) (queryVector : List ℚ)
    (embeddings : List PlaceEmbedding) (topK : Nat) : List (Place × ℚ) :=
  if embeddings.isEmpty then []
  else
    let similarities := embeddings.map fun e => batchCosine sqrt e.vector queryVector
    let topIndices := ((argsortAsc similarities).reverse).take topK
    topIndices.filterMap fun idx =>
      match embeddings[idx]?, similarities[idx]? with
      | some e, some s => if 0 < s then some (e.place, s) else none
      | _, _ => none

/-- Method `OptimizedRAGService._calculate_user_weights`: tallies of the saved
places, normalised by the maximal count (`1` when the tally is empty), scaled
by `0.1` for emotions and `0.05` for locations. -/
def calculate_user_weights (db : DB) (u : Nat) :
    List (String × ℚ) × List (String × ℚ) :=
  let saved := savedForUser db u
  let ec := emotionCounts saved
  let lc := locationCounts saved
  let maxE : Nat := if ec.isEmpty then 1 else (ec.map Prod.snd).foldl max 0
  let maxL : Nat := if lc.isEmpty then 1 else (lc.map Prod.snd).foldl max 0
  (ec.map fun p => (p.1, ((p.2 : ℚ) / (maxE : ℚ)) * (1 / 10)),
   lc.map fun p => (p.1, ((p.2 : ℚ) / (maxL : ℚ)) * (1 / 20)))

/-- Method `OptimizedRAGService._apply_cached_user_weights`: adds the matching
emotion weights and the location weight to each score, then re-sorts. -/
def apply_user_weights (db : DB) (u : Nat) (results : List (Place × ℚ)) :
    List (Place × ℚ) :=
  let w := calculate_user_weights db u
  let weighted := results.map fun pr =>
    let s := w.1.foldl
      (fun acc ew => if pr.1.emotions.contains ew.1 then acc + ew.2 else acc) pr.2
    let s :=
      match pr.1.location with
      | some loc =>
        match w.2.find? fun lw => lw.1 == loc with
        | some lw => s + lw.2
        | none => s
      | none => s
    (pr.1, s)
  sortPairsDesc weighted

/-- Method `OptimizedRAGService.hybrid_search_optimized` after the cache probe
and the query-vector resolution (both external): the same candidate filters as
the baseline, the batch similarity pass, and — only when a user is present —
the cached user-weight adjustment applied after truncation. -/
def hybrid_search_optimized (db : DB) (sqrt : ℚ → ℚ) (queryVector : List ℚ)
    (user : Option Nat) (emotionFilters locationFilters : List String)
    (topK : Nat) : List (Place × ℚ) :=
  let candidates := filterEmbeddings db.embeddings emotionFilters locationFilters
  let results := batch_similarity_calculation sqrt queryVector candidates topK
  match user with
  | some u => apply_user_weights db u results
  | none => results

/-! Smart hybrid service (`smart_hybrid_service.py`). -/

/-- One entry of the result-dict lists passed around by the smart, fast,
ultra-fast and enhanced pipelines (the fields the merging, deduplication and
saved-place-exclusion logic reads). -/
structure RecResult where
  shopId : Nat
  name : String
  address : String
  googlePlaceId : Option String
  source : String
deriving DecidableEq, Repr, Inhabited

/-- Conversion of a `Place` row into a result dict (`shop_id`, `name`,
`address`, `google_place_id`, `source` fields). -/
def placeToRec (src : String) (p : Place) : RecResult :=
  { shopId := p.shopId, name := p.name, address := p.address,
    googlePlaceId := p.googlePlaceId, source := src }

/-- Count of `SavedPlace.objects.filter(user_id=user_id)`. -/
def savedCount (db : DB) (u : Nat) : Nat := (savedForUser db u).length

/-- Count of `Place.objects.filter(Q(name__icontains=name) | Q(address__icontains=address))`. -/
def similarPlacesCount (db : DB) (name address : String) : Nat :=
  (db.places.filter fun p => icontains p.name name || icontains p.address address).length

/-- Count of `PlaceEmbedding.objects.count()`. -/
def embeddingCount (db : DB) : Nat := db.embeddings.length

/-- Method `SmartHybridService._should_use_rag`: the three internal-path rules
in source order, defaulting to the external (Google) path. -/
def should_use_rag (db : DB) (name address : String) (userId : Option Nat) : Bool :=
  if pyTruthyId userId = true ∧ 3 ≤ savedCount db (userId.getD 0) then true
  else if 2 ≤ similarPlacesCount db name address then true
  else if 10 ≤ embeddingCount db then true
  else false

/-- The `User.objects.get(id=user_id)` lookup guarded by `if user_id:`; a
missing user leaves `user = None`. -/
def lookupUser (db : DB) (userId : Option Nat) : Option Nat :=
  match userId with
  | some u => if u ≠ 0 ∧ u ∈ db.users then some u else none
  | none => none

/-- The RAG query string built by `_get_rag_recommendations` (and identically
by the enhanced service and the optimized enhanced service). -/
def ragQuery (name address : String) (emotionNames : List String) : String :=
  let parts := [name]
  let parts := if emotionNames.isEmpty then parts
    else parts ++ ["감정: " ++ String.intercalate ", " emotionNames]
  let parts := parts ++ ["지역: " ++ address]
  String.intercalate " " parts

/-- Method `SmartHybridService._get_rag_recommendations`: the GPT emotion
expansion is external, so the expanded `emotionNames` are an input; the RAG
search runs with `top_k = min(5, topK)` and the emotion names as filters; the
surrounding `except Exception: return []` turns any provider failure into an
empty list. -/
def get_rag_recommendations (db : DB) (sqrt : ℚ → ℚ)
    (embed : String → Except String (List ℚ)) (name address : String)
    (emotionNames : List String) (userId : Option Nat) (topK : Nat) :
    List RecResult :=
  let user := lookupUser db userId
  match hybrid_search db sqrt embed (ragQuery name address emotionNames) user
      emotionNames [] (min 5 topK) with
  | Except.error _ => []
  | Except.ok pairs => pairs.map fun pr => placeToRec "rag" pr.1

/-- Method `SmartHybridService._get_supplement_recommendations`: a keyword
search over the stored places, truncated to the needed count. -/
def get_supplement_recommendations (db : DB) (name address : String)
    (neededCount : Nat) : List RecResult :=
  ((db.places.filter fun p =>
      icontains p.name name || icontains p.address address).take neededCount).map
    (placeToRec "db_supplement")

/-- The ids of `SavedPlace.objects.filter(user_id=user_id, rec=1).values_list("shop_id")`. -/
def savedShopIds (db : DB) (u : Nat) : List Nat :=
  (db.savedPlaces.filter fun s => s.userId == u && s.recKind == 1).map
    fun s => s.shop.shopId

/-- Membership test used by the saved-place exclusion filters. -/
def notSavedCheck (db : DB) (u : Nat) (r : RecResult) : Bool :=
  !(savedShopIds db u).contains r.shopId

/-- The `if user_id:` saved-place exclusion step shared by the smart, fast and
ultra-fast pipelines. -/
def excludeSaved (db : DB) (userId : Option Nat) (results : List RecResult) :
    List RecResult :=
  if pyTruthyId userId then results.filter (notSavedCheck db (userId.getD 0))
  else results

/-- Modelled from the spec: the external-provider branch
(`_get_google_recommendations`) and the embedding provider are collaborators
outside this repository core (§6); an environment bundles the `sqrt`
interpretation, the `embed` collaborator, and the result list the Google
branch would produce. -/
structure SmartEnv where
  sqrt : ℚ → ℚ
  embed : String → Except String (List ℚ)
  googleResults : List RecResult

/-- The chosen-path results of `generate_smart_recommendations` (step 1): the
RAG branch or the Google branch, whose candidate list the source truncates to
`top_k` before processing. -/
def smart_chosen_results (db : DB) (env : SmartEnv) (name address : String)
    (emotionNames : List String) (userId : Option Nat) (topK : Nat) :
    List RecResult :=
  if should_use_rag db name address userId then
    get_rag_recommendations db env.sqrt env.embed name address emotionNames userId topK
  else env.googleResults.take topK

/-- Step 2 of `generate_smart_recommendations`: when the chosen path yielded
fewer than `top_k` results, the DB keyword supplement is appended
(`results.extend(supplement_results)`) — the source performs no
deduplication here. -/
def smart_candidate_results (db : DB) (env : SmartEnv) (name address : String)
    (emotionNames : List String) (userId : Option Nat) (topK : Nat) :
    List RecResult :=
  let results := smart_chosen_results db env name address emotionNames userId topK
  if results.length < topK then
    results ++ get_supplement_recommendations db name address (topK - results.length)
  else results

/-- Method `SmartHybridService.generate_smart_recommendations` on a cache
miss: branch choice, supplementation, saved-place exclusion, then the cache
write and the truncated return. The first component is the list written to
the cache (`cache.set` stores the post-exclusion list); the second is the
returned `results[:top_k]`. -/
def generate_smart_recommendations (db : DB) (env : SmartEnv)
    (name address : String) (emotionNames : List String) (userId : Option Nat)
    (topK : Nat) : List RecResult × List RecResult :=
  let results := excludeSaved db userId
    (smart_candidate_results db env name address emotionNames userId topK)
  (results, results.take topK)

/-- Identity used by the deduplication contract of §4.4: the external
`place_id` when present, the internal `shop_id` otherwise. -/
def identityOf (r : RecResult) : Sum String Nat :=
  match r.googlePlaceId with
  | some g => Sum.inl g
  | none => Sum.inr r.shopId

/-- Number of occurrences of one place identity in a result list. -/
def identityCount (rs : List RecResult) (i : Sum String Nat) : Nat :=
  (rs.filter fun r => identityOf r == i).length

/-! Ultra-fast service (`ultra_fast_service.py`) and enhanced service
(`enhanced_recommendation_service.py`), as far as claim C10 needs them. -/

/-- Method `UltraFastService.generate_ultra_fast_recommendations` on a cache
miss. Modelled from the spec: steps 1-4 (Google search, top-3 detail
enrichment, basic fill-in) are built entirely from external collaborators, so
their combined output list is an input; the saved-place exclusion, the cache
write (first component) and the truncated return (second component) follow
the source. -/
def generate_ultra_fast_recommendations (db : DB)
    (googleResults : List RecResult) (userId : Option Nat) (topK : Nat) :
    List RecResult × List RecResult :=
  let allResults := excludeSaved db userId googleResults
  (allResults, allResults.take topK)

/-- One entry of the enhanced pipeline result lists: the place dict is nested
under the `place` key. -/
structure EnhancedResult where
  place : RecResult
  isRagResult : Bool
  ragScore : ℚ
  source : String
deriving DecidableEq, Repr, Inhabited

/-- Method `EnhancedRecommendationService._try_rag_search`: the RAG search
with the full `top_k`, converted to nested result dicts; the surrounding
`except` returns an empty list on provider failure. -/
def try_rag_search (db : DB) (sqrt : ℚ → ℚ)
    (embed : String → Except String (List ℚ)) (name address : String)
    (emotionNames : List String) (user : Option Nat) (topK : Nat) :
    List EnhancedResult :=
  match hybrid_search db sqrt embed (ragQuery name address emotionNames) user
      emotionNames [] topK with
  | Except.error _ => []
  | Except.ok pairs => pairs.map fun pr =>
      { place := placeToRec "rag" pr.1, isRagResult := true, ragScore := pr.2,
        source := "rag" }

/-- Method `EnhancedRecommendationService.generate_enhanced_recommendations`:
RAG first, Google supplement (external; a function of the needed count) when
short, saved-place exclusion on the nested `shop_id`, truncation. This
pipeline performs no caching. -/
def generate_enhanced_recommendations (db : DB) (sqrt : ℚ → ℚ)
    (embed : String → Except String (List ℚ))
    (googleSupplement : Nat → List EnhancedResult) (name address : String)
    (emotionNames : List String) (userId : Option Nat) (topK : Nat) :
    List EnhancedResult :=
  let user := lookupUser db userId
  let ragResults := try_rag_search db sqrt embed name address emotionNames user topK
  let ragResults := if ragResults.length < topK then
      ragResults ++ googleSupplement (topK - ragResults.length)
    else ragResults
  let ragResults :=
    if pyTruthyId userId then
      ragResults.filter fun r => notSavedCheck db (userId.getD 0) r.place
    else ragResults
  ragResults.take topK

/-! Cache fingerprints (`smart_hybrid_service.py`). -/

/-- A recommendation request as received by
`generate_smart_recommendations`. -/
structure SmartRequest where
  name : String
  address : String
  emotionTags : List String
  userId : Option Nat
  category : String
  topK : Nat
deriving DecidableEq, Repr

/-- Python str() of the emotion-tag list inside the f-string (list formatting;
the quoting of the Python repr is immaterial to the keying structure). -/
def pyStrOfTags (l : List String) : String :=
  "[" ++ String.intercalate ", " l ++ "]"

/-- Python str() of the optional user id inside the f-string. -/
def pyStrOfUser : Option Nat → String
  | none => "None"
  | some u => toString u

/-- The cache key of `generate_smart_recommendations`:
`f"smart_rec:{hash(f'{name}{address}{emotion_tags}{user_id}')}"`. Within one
process, `hash` is a fixed function of its argument string, so the keying
structure (which requests share a key) is that of the payload string, which
is modelled directly. Neither `top_k` nor `category` enters the payload. -/
def smart_cache_key (r : SmartRequest) : String :=
  "smart_rec:" ++ r.name ++ r.address ++ pyStrOfTags r.emotionTags ++
    pyStrOfUser r.userId

/-! Sort-order instances for the stable sorts used above. -/

instance : IsTotal (Place × ℚ) fun a b => b.2 ≤ a.2 := ⟨fun a b => le_total b.2 a.2⟩

instance : IsTrans (Place × ℚ) fun a b => b.2 ≤ a.2 :=
  ⟨fun _ _ _ h1 h2 => le_trans h2 h1⟩

instance : IsAntisymm (Place × ℚ) fun a b => b.2 < a.2 :=
  ⟨fun _ _ h1 h2 => absurd h1 (not_lt.mpr h2.le)⟩

instance : IsTotal (ℕ × ℚ) fun a b => a.2 ≤ b.2 := ⟨fun a b => le_total a.2 b.2⟩

instance : IsTrans (ℕ × ℚ) fun a b => a.2 ≤ b.2 :=
  ⟨fun _ _ _ h1 h2 => le_trans h1 h2⟩

/-! Concrete instances used by the counterexamples and witnesses below. -/

/-- A stored place carrying an external id, matched by the query name. -/
def pC3 : Place :=
  { shopId := 1, name := "Cafe", address := "Seoul X", emotions := [],
    location := none, googlePlaceId := some "g1" }

/-- A saved shop for the user of the C3 scenario. -/
def pSavedC3 : Place :=
  { shopId := 50, name := "s", address := "s", emotions := [],
    location := none, googlePlaceId := none }

/-- Database of the C3 scenario: one stored place with an embedding, and a
user with three saved places (so the RAG branch is chosen). -/
def dbC3 : DB :=
  { places := [pC3]
    embeddings := [{ place := pC3, vector := [1] }]
    savedPlaces := [⟨1, pSavedC3, 0⟩, ⟨1, pSavedC3, 0⟩, ⟨1, pSavedC3, 0⟩]
    users := [1] }

/-- Environment of the C3 scenario: the embedding provider succeeds. -/
def envC3 : SmartEnv :=
  { sqrt := id, embed := fun _ => Except.ok [1], googleResults := [] }

/-- A candidate place whose embedding is orthogonal to the C4 query. -/
def pC4 : Place :=
  { shopId := 4, name := "p4", address := "a4", emotions := [],
    location := none, googlePlaceId := none }

/-- Database of the C4 scenario: a single candidate with similarity zero. -/
def dbC4 : DB :=
  { places := [pC4], embeddings := [{ place := pC4, vector := [0, 1] }],
    savedPlaces := [], users := [] }

/-- Candidate with base similarity 9/10 in the C6 scenario. -/
def pHiC6 : Place :=
  { shopId := 61, name := "hi", address := "a", emotions := [],
    location := none, googlePlaceId := none }

/-- Candidate with base similarity 1/2 in the C6 scenario, carrying all five
preferred emotions. -/
def pLoC6 : Place :=
  { shopId := 62, name := "lo", address := "a",
    emotions := ["e1", "e2", "e3", "e4", "e5"], location := none,
    googlePlaceId := none }

/-- The repeatedly saved shop of the C6 user, carrying the five emotions. -/
def pSavedC6 : Place :=
  { shopId := 63, name := "sv", address := "a",
    emotions := ["e1", "e2", "e3", "e4", "e5"], location := none,
    googlePlaceId := none }

/-- Database of the C6 scenario: the user saved the same five-emotion shop
nine times, so each preferred emotion has tally 9. -/
def dbC6 : DB :=
  { places := []
    embeddings := [{ place := pHiC6, vector := [10 / 9] },
                   { place := pLoC6, vector := [2] }]
    savedPlaces := List.replicate 9 ⟨1, pSavedC6, 0⟩
    users := [1] }

/-- A stored place without the filtered emotion, used ten times in the C7
scenario so that the RAG branch is chosen. -/
def pC7 : Place :=
  { shopId := 7, name := "p7", address := "a7", emotions := [],
    location := none, googlePlaceId := none }

/-- Database of the C7 scenario: ten embeddings (internal path chosen), no
keyword-matching places, no candidate carrying the filtered emotion. -/
def dbC7 : DB :=
  { places := []
    embeddings := List.replicate 10 { place := pC7, vector := [1] }
    savedPlaces := [], users := [] }

/-- Environment whose embedding provider always fails. -/
def envC7fail : SmartEnv :=
  { sqrt := id, embed := fun _ => Except.error "provider down",
    googleResults := [] }

/-- Environment whose embedding provider succeeds. -/
def envC7ok : SmartEnv :=
  { sqrt := id, embed := fun _ => Except.ok [1], googleResults := [] }

/-- A smart-pipeline request. -/
def reqC8a : SmartRequest :=
  { name := "a", address := "b", emotionTags := ["c"], userId := some 1,
    category := "", topK := 3 }

/-- The same request with a different result count. -/
def reqC8b : SmartRequest := { reqC8a with topK := 8 }

/-- The same request with a different category. -/
def reqC8c : SmartRequest := { reqC8a with category := "cafe" }

/-- First candidate of the C9 witness scenario. -/
def pC9a : Place :=
  { shopId := 91, name := "p91", address := "a", emotions := [],
    location := none, googlePlaceId := none }

/-- Second candidate of the C9 witness scenario. -/
def pC9b : Place :=
  { shopId := 92, name := "p92", address := "a", emotions := [],
    location := none, googlePlaceId := none }

/-- Database of the C9 witness scenario: two candidates with distinct
positive similarities. -/
def dbC9w : DB :=
  { places := []
    embeddings := [{ place := pC9a, vector := [1, 0] },
                   { place := pC9b, vector := [2, 0] }]
    savedPlaces := [], users := [] }

/-- Candidate of the C9 counterexample scenario, orthogonal to the query. -/
def pC9c : Place :=
  { shopId := 93, name := "p93", address := "a", emotions := [],
    location := none, googlePlaceId := none }

/-- Database of the C9 counterexample scenario: one zero-similarity
candidate. -/
def dbC9c : DB :=
  { places := [], embeddings := [{ place := pC9c, vector := [0, 1] }],
    savedPlaces := [], users := [] }

/-- The shop the C10 user saved through recommendation channel 1. -/
def pC10 : Place :=
  { shopId := 5, name := "saved", address := "a", emotions := [],
    location := none, googlePlaceId := none }

/-- Database of the C10 witness scenario: user 1 saved shop 5 with rec = 1. -/
def dbC10 : DB :=
  { places := [], embeddings := [], savedPlaces := [⟨1, pC10, 1⟩],
    users := [1] }

/-- Environment of the C10 witness scenario: the Google branch returns the
saved shop and one other shop. -/
def envC10 : SmartEnv :=
  { sqrt := id, embed := fun _ => Except.ok [1]
    googleResults := [placeToRec "google" pC10,
      { shopId := 6, name := "other", address := "a", googlePlaceId := none,
        source := "google" }] }

/-- Ultra-fast branch output of the C10 witness scenario. -/
def gUltraC10 : List RecResult :=
  [placeToRec "google" pC10,
   { shopId := 6, name := "other", address := "a", googlePlaceId := none,
     source := "google" }]

/-- Enhanced-pipeline Google supplement of the C10 witness scenario. -/
def gEnhC10 : Nat → List EnhancedResult := fun _ =>
  [{ place := placeToRec "google" pC10, isRagResult := false, ragScore := 0,
     source := "google" },
   { place := { shopId := 6, name := "other", address := "a",
                googlePlaceId := none, source := "google" },
     isRagResult := false, ragScore := 0, source := "google" }]

/-- The empty database, used where a witness only needs a trivial context. -/
def emptyDB : DB := { places := [], embeddings := [], savedPlaces := [], users := [] }

/-- Candidate pair of the C6 witness. -/
def pW6a : Place :=
  { shopId := 64, name := "w1", address := "a", emotions := [],
    location := none, googlePlaceId := none }

/-- Second candidate of the C6 witness. -/
def pW6b : Place :=
  { shopId := 65, name := "w2", address := "a", emotions := ["e1"],
    location := none, googlePlaceId := none }

/-- Embeddings wrapping the three places of the C5 example (emotions calm,
romantic, and both; only the third is in Yongsan). -/
def eC5one : PlaceEmbedding :=
  { place := { shopId := 11, name := "P1", address := "a1",
               emotions := ["calm"], location := some "Mapo",
               googlePlaceId := none }, vector := [] }

/-- Second embedding of the C5 example. -/
def eC5two : PlaceEmbedding :=
  { place := { shopId := 12, name := "P2", address := "a2",
               emotions := ["romantic"], location := some "Mapo",
               googlePlaceId := none }, vector := [] }

/-- Third embedding of the C5 example, located in Yongsan with both
emotions. -/
def eC5three : PlaceEmbedding :=
  { place := { shopId := 13, name := "P3", address := "a3",
               emotions := ["calm", "romantic"], location := some "Yongsan",
               googlePlaceId := none }, vector := [] }

/-! Theorems. -/

/-- C1: for every recommendation request, `_should_use_rag` chooses the
internal (RAG) path if and only if the requesting user is supplied (truthy)
with at least 3 saved places, or at least 2 stored places match the query
name or address by case-insensitive containment, or at least 10 place
embeddings are stored; otherwise the external (Google) path is chosen. The
first-true-rule-wins order of the source is equivalent to this
disjunction. -/
theorem C1_source_selection_policy (db : DB) (name address : String)
    (userId : Option Nat) :
    should_use_rag db name address userId = true ↔
      (pyTruthyId userId = true ∧ 3 ≤ savedCount db (userId.getD 0))
      ∨ 2 ≤ similarPlacesCount db name address
      ∨ 10 ≤ embeddingCount db := by
  unfold should_use_rag
  split
  next h => simp [h]
  next h =>
    split
    next h2 => simp [h2]
    next h2 =>
      split
      next h3 => simp [h3]
      next h3 => simp [h, h2, h3]

/-- C2: `cosine_similarity` returns exactly 0 — and raises no error —
whenever the vectors have different lengths, or either vector is empty, or
either vector has zero magnitude (all entries zero). -/
theorem C2_cosine_zero_guard (sqrt : ℚ → ℚ) (q v : List ℚ)
    (h : q.length ≠ v.length ∨ q = [] ∨ v = [] ∨ (∀ x ∈ q, x = 0) ∨ (∀ x ∈ v, x = 0)) :
    cosine_similarity sqrt q v = 0 := by
  unfold cosine_similarity
  by_cases hg : (q.isEmpty || v.isEmpty || (q.length != v.length)) = true
  · simp only [hg, if_true]
  · simp only [Bool.or_eq_true, not_or, Bool.not_eq_true] at hg
    obtain ⟨⟨h1, h2⟩, h3⟩ := hg
    have hqne : q ≠ [] := by simpa [List.isEmpty_iff] using h1
    have hvne : v ≠ [] := by simpa [List.isEmpty_iff] using h2
    have hlen : q.length = v.length := by simpa using h3
    rcases h with h | h | h | h | h
    · exact absurd hlen h
    · exact absurd h hqne
    · exact absurd h hvne
    · have hz : ((q.zip v).map fun p => p.1 * p.1).sum = 0 := by
        refine List.sum_eq_zero fun x hx => ?_
        obtain ⟨p, hp, rfl⟩ := List.mem_map.1 hx
        rw [h p.1 (List.of_mem_zip hp).1, zero_mul]
      simp only [Bool.or_eq_true, Bool.not_eq_true, h1, h2, h3, Bool.false_or,
        if_false]
      rw [if_pos (Or.inl hz)]
      simp
    · have hz : ((q.zip v).map fun p => p.2 * p.2).sum = 0 := by
        refine List.sum_eq_zero fun x hx => ?_
        obtain ⟨p, hp, rfl⟩ := List.mem_map.1 hx
        rw [h p.2 (List.of_mem_zip hp).2, zero_mul]
      simp only [Bool.or_eq_true, Bool.not_eq_true, h1, h2, h3, Bool.false_or,
        if_false]
      rw [if_pos (Or.inr hz)]
      simp

/-- Witness for C2 at the spec examples: `similarity([], [1,2,3]) == 0.0`
and `similarity([0,0], [1,1]) == 0.0`. -/
theorem C2_cosine_zero_guard_witness :
    cosine_similarity id ([] : List ℚ) [1, 2, 3] = 0 ∧
      cosine_similarity id [(0 : ℚ), 0] [1, 1] = 0 :=
  ⟨C2_cosine_zero_guard id [] [1, 2, 3] (Or.inr (Or.inl rfl)),
   C2_cosine_zero_guard id [0, 0] [1, 1]
     (Or.inr (Or.inr (Or.inr (Or.inl (by decide)))))⟩

/-- C5: a place is a hybrid-search candidate if and only if it passes each
supplied filter field — at least one of the given emotion names when the
emotion filter is non-empty, and a location name among the given location
names when the location filter is non-empty (OR within a field, AND across
fields; an empty filter list is absent, as Python falsiness dictates).
On the spec example, emotion filters [calm, romantic] admit all three
places, and adding location filter [Yongsan] narrows the candidates to the
third place alone. -/
theorem C5_filter_semantics :
    (∀ (embs : List PlaceEmbedding) (ef lf : List String) (e : PlaceEmbedding),
      e ∈ filterEmbeddings embs ef lf ↔
        e ∈ embs ∧ (ef = [] ∨ matchesEmotionFilter e.place ef = true)
          ∧ (lf = [] ∨ matchesLocationFilter e.place lf = true))
    ∧ filterEmbeddings [eC5one, eC5two, eC5three] ["calm", "romantic"] []
        = [eC5one, eC5two, eC5three]
    ∧ filterEmbeddings [eC5one, eC5two, eC5three] ["calm", "romantic"] ["Yongsan"]
        = [eC5three] := by
  refine ⟨fun embs ef lf e => ?_, by decide, by decide⟩
  unfold filterEmbeddings
  by_cases hef : ef.isEmpty
  · have hef' : ef = [] := List.isEmpty_iff.1 hef
    by_cases hlf : lf.isEmpty
    · have hlf' : lf = [] := List.isEmpty_iff.1 hlf
      simp [hef, hlf, hef', hlf']
    · have hlf' : lf ≠ [] := fun hc => hlf (by simp [hc])
      simp [hef, hlf, hef', hlf', List.mem_filter]
  · have hef' : ef ≠ [] := fun hc => hef (by simp [hc])
    by_cases hlf : lf.isEmpty
    · have hlf' : lf = [] := List.isEmpty_iff.1 hlf
      simp [hef, hlf, hef', hlf', List.mem_filter]
    · have hlf' : lf ≠ [] := fun hc => hlf (by simp [hc])
      simp [hef, hlf, hef', hlf', List.mem_filter, and_assoc]
      tauto

/-- C8 counterexample: the smart-service cache key is built from the name,
address, emotion tags and user id only, so two requests that differ only in
the requested result count K — or only in the category — produce the same
cache key, contradicting the claim that such requests never share a cache
entry. -/
theorem C8_counterexample :
    smart_cache_key reqC8a = smart_cache_key reqC8b
      ∧ reqC8a.topK ≠ reqC8b.topK
      ∧ smart_cache_key reqC8a = smart_cache_key reqC8c
      ∧ reqC8a.category ≠ reqC8c.category := by
  refine ⟨rfl, by decide, rfl, by decide⟩

/-- C8 amended: the cache fingerprint of a smart recommendation request is a
deterministic function of the name, the address, the emotion tag list and
the user id alone; the requested count K and the category are not part of
the key, so requests differing only in them share a cache entry. -/
theorem C8_amended_key_determinism (r1 r2 : SmartRequest)
    (h1 : r1.name = r2.name) (h2 : r1.address = r2.address)
    (h3 : r1.emotionTags = r2.emotionTags) (h4 : r1.userId = r2.userId) :
    smart_cache_key r1 = smart_cache_key r2 := by
  unfold smart_cache_key
  rw [h1, h2, h3, h4]

/-- Witness for C8 amended at the two concrete requests differing only in
K. -/
theorem C8_amended_key_determinism_witness :
    smart_cache_key reqC8a = smart_cache_key reqC8b :=
  C8_amended_key_determinism reqC8a reqC8b rfl rfl rfl rfl

/-- C3 counterexample: in the concrete C3 scenario the RAG branch returns the
stored place and the keyword supplement returns the same place again; the
merged returned list contains its identity (external id g1) twice, so the
merged result list does not contain each place identity exactly once. -/
theorem C3_counterexample :
    identityCount
      ((generate_smart_recommendations dbC3 envC3 "Cafe" "Seoul" [] (some 1) 2).2)
      (Sum.inl "g1") = 2 := by
  with_unfolding_all decide

/-- C3 amended: the supplement step of `generate_smart_recommendations`
appends the DB keyword-search results to the chosen-path results without any
deduplication — identity multiplicities add (a place present in both lists
appears twice) — while chosen-path entries do keep their original rank
positions (the merged list begins with the chosen list). -/
theorem C3_amended_merge_no_dedup (db : DB) (env : SmartEnv)
    (name address : String) (en : List String) (userId : Option Nat)
    (topK : Nat) (i : Sum String Nat) :
    (identityCount (smart_candidate_results db env name address en userId topK) i
      = identityCount (smart_chosen_results db env name address en userId topK) i
        + (if (smart_chosen_results db env name address en userId topK).length < topK
           then identityCount
             (get_supplement_recommendations db name address
               (topK - (smart_chosen_results db env name address en userId topK).length)) i
           else 0))
    ∧ (smart_candidate_results db env name address en userId topK).take
        (smart_chosen_results db env name address en userId topK).length
      = smart_chosen_results db env name address en userId topK := by
  unfold smart_candidate_results
  by_cases hlt : (smart_chosen_results db env name address en userId topK).length < topK
  · rw [if_pos hlt, if_pos hlt]
    exact ⟨by simp [identityCount, List.filter_append], List.take_left _ _⟩
  · rw [if_neg hlt, if_neg hlt]
    exact ⟨by simp, List.take_length _⟩

/-- C7 counterexample: with the embedding provider failing, the smart
recommendation call returns the very same value as with a working provider
and zero matching candidates — a plain empty list, not a failure signal, so
an upstream failure is reported exactly like an empty success. -/
theorem C7_counterexample :
    generate_smart_recommendations dbC7 envC7fail "n" "a" ["x"] none 3
        = generate_smart_recommendations dbC7 envC7ok "n" "a" ["x"] none 3
      ∧ envC7fail.embed (ragQuery "n" "a" ["x"]) = Except.error "provider down"
      ∧ (generate_smart_recommendations dbC7 envC7fail "n" "a" ["x"] none 3).2
        = [] := by
  refine ⟨by with_unfolding_all decide, rfl, by with_unfolding_all decide⟩

/-- C7 amended: a failure of the embedding provider inside the RAG branch is
swallowed by the `except` handler (`_get_rag_recommendations` returns an
empty list), after which `generate_smart_recommendations` proceeds as a
success: it returns the saved-place-filtered keyword supplement as a plain
list, carrying no failure signal distinguishable from zero results. -/
theorem C7_amended_failure_swallowed (db : DB) (env : SmartEnv)
    (name address : String) (en : List String) (userId : Option Nat)
    (topK : Nat) (msg : String)
    (hfail : env.embed (ragQuery name address en) = Except.error msg)
    (hrag : should_use_rag db name address userId = true) :
    generate_smart_recommendations db env name address en userId topK
      = (excludeSaved db userId (get_supplement_recommendations db name address topK),
         (excludeSaved db userId
           (get_supplement_recommendations db name address topK)).take topK) := by
  have hhs : hybrid_search db env.sqrt env.embed (ragQuery name address en)
      (lookupUser db userId) en [] (min 5 topK) = Except.error msg := by
    unfold hybrid_search
    rw [hfail]
    rfl
  have hget : get_rag_recommendations db env.sqrt env.embed name address en
      userId topK = [] := by
    unfold get_rag_recommendations
    simp only [hhs]
  unfold generate_smart_recommendations smart_candidate_results
    smart_chosen_results
  rw [hrag]
  simp only [if_true, hget]
  rcases Nat.eq_zero_or_pos topK with h0 | hpos
  · subst h0
    simp [get_supplement_recommendations]
  · simp [hpos]

/-- Witness for C7 amended at the concrete failing environment. -/
theorem C7_amended_failure_swallowed_witness :
    generate_smart_recommendations dbC7 envC7fail "n" "a" ["x"] none 3
      = (excludeSaved dbC7 none (get_supplement_recommendations dbC7 "n" "a" 3),
         (excludeSaved dbC7 none
           (get_supplement_recommendations dbC7 "n" "a" 3)).take 3) :=
  C7_amended_failure_swallowed dbC7 envC7fail "n" "a" ["x"] none 3
    "provider down" rfl (by with_unfolding_all decide)

/-- C4 counterexample: the baseline `hybrid_search` of `rag_service.py`
applies no positivity filter — a candidate orthogonal to the query appears in
its ranked output with score 0, while the optimized batch path drops it; so
it is false that every ranked list produced by hybrid search contains only
strictly-positive-score candidates. -/
theorem C4_counterexample :
    hybrid_search_core dbC4 id [1, 0] none [] [] 10 = [(pC4, 0)]
      ∧ hybrid_search_optimized dbC4 id [1, 0] none [] [] 10 = [] := by
  refine ⟨by with_unfolding_all decide, by with_unfolding_all decide⟩

/-- C4 amended: only the optimized batch similarity pass
(`_batch_similarity_calculation`) restricts its output to candidates with
strictly positive score; every entry of its result list has score greater
than zero. The baseline `hybrid_search` performs no such filtering. -/
theorem C4_amended_batch_positive (sqrt : ℚ → ℚ) (qv : List ℚ)
    (embs : List PlaceEmbedding) (topK : Nat) :
    (batch_similarity_calculation sqrt qv embs topK).all
      (fun pr => decide (0 < pr.2)) = true := by
  unfold batch_similarity_calculation
  by_cases he : embs.isEmpty
  · simp [he]
  · simp only [he, Bool.false_eq_true, if_false]
    rw [List.all_eq_true]
    intro x hx
    obtain ⟨idx, _, hfx⟩ := List.mem_filterMap.1 hx
    split at hfx
    · split at hfx
      next hs => cases hfx; exact decide_eq_true hs
      next => cases hfx
    · cases hfx

/-- The emotion-weight accumulation never decreases below its start. -/
theorem emotionWeight_nonneg (ctx : UserContext) (p : Place) :
    0 ≤ emotionWeight ctx p := by
  unfold emotionWeight
  have key : ∀ (l : List (String × Nat)) (acc : ℚ), 0 ≤ acc →
      0 ≤ l.foldl (fun acc ec =>
        if p.emotions.contains ec.1 then acc + (1 / 10) * ((ec.2 : ℚ) / 10)
        else acc) acc := by
    intro l
    induction l with
    | nil => intro acc h; simpa using h
    | cons x xs ih =>
      intro acc h
      simp only [List.foldl_cons]
      apply ih
      by_cases hc : p.emotions.contains x.1
      · rw [if_pos hc]
        exact add_nonneg h (by positivity)
      · rwa [if_neg hc]
  exact key _ 0 le_rfl

/-- The location-weight accumulation never decreases below its start. -/
theorem locationWeight_nonneg (ctx : UserContext) (p : Place) :
    0 ≤ locationWeight ctx p := by
  unfold locationWeight
  cases hp : p.location with
  | none => exact le_rfl
  | some loc =>
    have key : ∀ (l : List (String × Nat)) (acc : ℚ), 0 ≤ acc →
        0 ≤ l.foldl (fun acc lc =>
          if loc == lc.1 then acc + (1 / 20) * ((lc.2 : ℚ) / 10) else acc) acc := by
      intro l
      induction l with
      | nil => intro acc h; simpa using h
      | cons x xs ih =>
        intro acc h
        simp only [List.foldl_cons]
        apply ih
        by_cases hc : loc == x.1
        · rw [if_pos hc]
          exact add_nonneg h (by positivity)
        · rwa [if_neg hc]
    exact key _ 0 le_rfl

/-- The total user-preference weight is nonnegative. -/
theorem userWeight_nonneg (ctx : UserContext) (p : Place) :
    0 ≤ userWeight ctx p :=
  add_nonneg (emotionWeight_nonneg ctx p) (locationWeight_nonneg ctx p)

set_option maxRecDepth 40000 in
/-- C6 counterexample: in the concrete C6 scenario — a user whose nine saved
places share five emotions, the five tallies feeding the weighting formula
`0.1 * (count / 10)` uncapped — the weighted ranking puts the candidate with
base similarity 1/2 (weighted to 19/20) above the candidate with base
similarity 9/10, while the unweighted ranking orders them the other way: a
0.5-base candidate outranks a 0.9-base candidate purely through weighting. -/
theorem C6_counterexample :
    hybrid_search_core dbC6 (fun q => q) [1] (some 1) [] [] 10
        = [(pLoC6, 19 / 20), (pHiC6, 9 / 10)]
      ∧ hybrid_search_core dbC6 (fun q => q) [1] none [] [] 10
        = [(pHiC6, 9 / 10), (pLoC6, 1 / 2)] := by
  refine ⟨by with_unfolding_all decide, by with_unfolding_all decide⟩

/-- C6 amended: the user-preference weighting is additive and nonnegative —
`0.1 * (count / 10)` per matched top-5 preferred emotion and
`0.05 * (count / 10)` for a matched top-3 preferred location, where `count`
is the user's uncapped saved-place tally — so weighting never reorders a
pair of candidates whose base-similarity gap is at least the total weight
added to the lower-based candidate; since tallies are uncapped, the total
weight can exceed 0.4, and a base-0.9 candidate can be outranked by a
base-0.5 one when the tallies are large. -/
theorem C6_amended_weight_bounded (db : DB) (u : Nat) (p1 p2 : Place)
    (s1 s2 : ℚ)
    (h : s2 + userWeight (build_user_context db u) p2 ≤ s1) :
    s2 + userWeight (build_user_context db u) p2
      ≤ s1 + userWeight (build_user_context db u) p1 :=
  le_trans h (le_add_of_nonneg_right (userWeight_nonneg _ _))

/-- Witness for C6 amended: with an empty saved-place history the weight is
zero and a unit gap is preserved. -/
theorem C6_amended_weight_bounded_witness :
    (0 : ℚ) + userWeight (build_user_context emptyDB 1) pW6b
      ≤ 1 + userWeight (build_user_context emptyDB 1) pW6a :=
  C6_amended_weight_bounded emptyDB 1 pW6a pW6b 1 0
    (by with_unfolding_all decide)

/-- A filtered list satisfies its own filter predicate everywhere. -/
theorem all_of_filter {α : Type} (p : α → Bool) (l : List α) :
    (l.filter p).all p = true := by
  rw [List.all_eq_true]
  intro x hx
  exact (List.mem_filter.1 hx).2

/-- Truncation preserves a universally satisfied predicate. -/
theorem all_of_take {α : Type} (p : α → Bool) (l : List α)
    (h : l.all p = true) (n : Nat) : (l.take n).all p = true := by
  rw [List.all_eq_true] at h ⊢
  intro x hx
  exact h x ((List.take_sublist n l).subset hx)

/-- The saved-place exclusion step leaves only results passing the
saved-shop check. -/
theorem excludeSaved_all (db : DB) (u : Nat) (hu : u ≠ 0)
    (l : List RecResult) :
    (excludeSaved db (some u) l).all (notSavedCheck db u) = true := by
  unfold excludeSaved
  have htr : pyTruthyId (some u) = true := by simp [pyTruthyId, hu]
  rw [htr, if_pos rfl]
  exact all_of_filter (notSavedCheck db u) l

/-- C10: for every recommendation request carrying a (truthy) user id, the
smart, ultra-fast and enhanced pipelines never return — and the smart and
ultra-fast pipelines never cache — a result whose shop id appears among that
user's SavedPlace rows with rec = 1: the exclusion happens before the cache
write (first components) and before the truncated return (second
components). -/
theorem C10_saved_place_exclusion (db : DB) (env : SmartEnv)
    (gUltra : List RecResult) (sqrt : ℚ → ℚ)
    (embed : String → Except String (List ℚ))
    (gEnh : Nat → List EnhancedResult) (name address : String)
    (en : List String) (u : Nat) (topK : Nat) (hu : u ≠ 0) :
    ((generate_smart_recommendations db env name address en (some u) topK).1.all
        (notSavedCheck db u) = true)
    ∧ ((generate_smart_recommendations db env name address en (some u) topK).2.all
        (notSavedCheck db u) = true)
    ∧ ((generate_ultra_fast_recommendations db gUltra (some u) topK).1.all
        (notSavedCheck db u) = true)
    ∧ ((generate_ultra_fast_recommendations db gUltra (some u) topK).2.all
        (notSavedCheck db u) = true)
    ∧ ((generate_enhanced_recommendations db sqrt embed gEnh name address en
        (some u) topK).all
        (fun (r : EnhancedResult) => notSavedCheck db u r.place) = true) := by
  have htr : pyTruthyId (some u) = true := by simp [pyTruthyId, hu]
  refine ⟨?_, ?_, ?_, ?_, ?_⟩
  · simp only [generate_smart_recommendations]
    exact excludeSaved_all db u hu _
  · simp only [generate_smart_recommendations]
    exact all_of_take _ _ (excludeSaved_all db u hu _) _
  · simp only [generate_ultra_fast_recommendations]
    exact excludeSaved_all db u hu _
  · simp only [generate_ultra_fast_recommendations]
    exact all_of_take _ _ (excludeSaved_all db u hu _) _
  · simp only [generate_enhanced_recommendations, htr, if_true]
    exact all_of_take _ _
      (all_of_filter (fun (r : EnhancedResult) => notSavedCheck db u r.place) _) _

/-- Witness for C10 at the concrete scenario: user 1 saved shop 5 through
rec channel 1, and every pipeline output excludes it. -/
theorem C10_saved_place_exclusion_witness :
    ((generate_smart_recommendations dbC10 envC10 "n" "a" [] (some 1) 3).1.all
        (notSavedCheck dbC10 1) = true)
    ∧ ((generate_smart_recommendations dbC10 envC10 "n" "a" [] (some 1) 3).2.all
        (notSavedCheck dbC10 1) = true)
    ∧ ((generate_ultra_fast_recommendations dbC10 gUltraC10 (some 1) 3).1.all
        (notSavedCheck dbC10 1) = true)
    ∧ ((generate_ultra_fast_recommendations dbC10 gUltraC10 (some 1) 3).2.all
        (notSavedCheck dbC10 1) = true)
    ∧ ((generate_enhanced_recommendations dbC10 id (fun _ => Except.ok [1])
        gEnhC10 "n" "a" [] (some 1) 3).all
        (fun (r : EnhancedResult) => notSavedCheck dbC10 1 r.place) = true) :=
  C10_saved_place_exclusion dbC10 envC10 gUltraC10 id (fun _ => Except.ok [1])
    gEnhC10 "n" "a" [] 1 3 (by decide)

/-- Squares of first components over a zip of equal-length lists. -/
theorem zip_map_fst_sq (a b : List ℚ) (h : a.length = b.length) :
    ((a.zip b).map fun p => p.1 * p.1) = a.map fun x => x * x := by
  induction a generalizing b with
  | nil => simp
  | cons x xs ih =>
    cases b with
    | nil => simp at h
    | cons y ys =>
      simp only [List.length_cons, Nat.succ.injEq] at h
      simp [ih ys h]

/-- Squares of second components over a zip of equal-length lists. -/
theorem zip_map_snd_sq (a b : List ℚ) (h : a.length = b.length) :
    ((a.zip b).map fun p => p.2 * p.2) = b.map fun x => x * x := by
  induction a generalizing b with
  | nil => cases b with
    | nil => simp
    | cons y ys => simp at h
  | cons x xs ih =>
    cases b with
    | nil => simp at h
    | cons y ys =>
      simp only [List.length_cons, Nat.succ.injEq] at h
      simp [ih ys h]

/-- The dot product is symmetric. -/
theorem dotList_comm (a b : List ℚ) : dotList a b = dotList b a := by
  unfold dotList
  induction a generalizing b with
  | nil => cases b <;> simp
  | cons x xs ih =>
    cases b with
    | nil => simp
    | cons y ys => simp [ih ys, mul_comm]

/-- On well-formed inputs — equal lengths and nonzero sums of squares — the
guarded scalar cosine of the baseline equals the unguarded batch cosine of
the optimized service. -/
theorem cosine_eq_batchCosine (sqrt : ℚ → ℚ) (q v : List ℚ)
    (hl : v.length = q.length) (hq : sumSq q ≠ 0) (hv : sumSq v ≠ 0) :
    cosine_similarity sqrt q v = batchCosine sqrt v q := by
  have hqne : q ≠ [] := by rintro rfl; exact hq (by simp [sumSq])
  have hvne : v ≠ [] := by rintro rfl; exact hv (by simp [sumSq])
  unfold cosine_similarity batchCosine
  have hg : (q.isEmpty || v.isEmpty || (q.length != v.length)) = false := by
    simp [List.isEmpty_iff, hqne, hvne, hl]
  simp only [hg, Bool.false_eq_true, if_false]
  have e1 : ((q.zip v).map fun p => p.1 * p.1) = q.map fun x => x * x :=
    zip_map_fst_sq q v hl.symm
  have e2 : ((q.zip v).map fun p => p.2 * p.2) = v.map fun x => x * x :=
    zip_map_snd_sq q v hl.symm
  simp only [e1, e2]
  have hq' : (q.map fun x => x * x).sum ≠ 0 := hq
  have hv' : (v.map fun x => x * x).sum ≠ 0 := hv
  rw [if_neg (by push_neg; exact ⟨hq', hv'⟩)]
  have e3 : ((q.zip v).map fun p => p.1 * p.2).sum = dotList v q := dotList_comm q v
  rw [e3]
  have e4 : (q.map fun x => x * x).sum = sumSq q := rfl
  have e5 : (v.map fun x => x * x).sum = sumSq v := rfl
  rw [e4, e5, mul_comm (sqrt (sumSq q)) (sqrt (sumSq v))]

/-- Indexing the range of a list by positional default-read reproduces the
list. -/
theorem map_getD_range {α : Type} [Inhabited α] (l : List α) :
    (List.range l.length).map (fun i => l.getD i default) = l := by
  apply List.ext_getElem
  · simp
  · intro n h1 h2
    simp only [List.getElem_map, List.getElem_range]
    exact List.getD_eq_getElem l default h2

/-- The descending argsort of the score column, read back through positional
access, is exactly the stable descending sort of the scored pairs, provided
the scores are pairwise distinct. -/
theorem argsort_desc_eq (ps : List (Place × ℚ))
    (hnd : (ps.map Prod.snd).Nodup) :
    ((argsortAsc (ps.map Prod.snd)).reverse).map
        (fun i => ps.getD i (default : Place × ℚ))
      = sortPairsDesc ps := by
  set sims := ps.map Prod.snd with hsims
  set g : Nat → Place × ℚ := fun i => ps.getD i default with hg
  set sortedEnum := sims.enum.insertionSort (fun a b => a.2 ≤ b.2) with hse
  have hlen : sims.length = ps.length := by rw [hsims, List.length_map]
  have p1 : sortedEnum.Perm sims.enum := List.perm_insertionSort _ _
  have hargs : argsortAsc sims = sortedEnum.map Prod.fst := rfl
  have hmem : ∀ x ∈ sortedEnum, x.1 < ps.length ∧ (g x.1).2 = x.2 := by
    intro x hx
    have hx' : x ∈ sims.enum := p1.subset hx
    have hx2 : sims[x.1]? = some x.2 := List.mem_enum_iff_getElem?.1 hx'
    rw [hsims, List.getElem?_map] at hx2
    obtain ⟨pr, hpr, hpr2⟩ := Option.map_eq_some'.1 hx2
    obtain ⟨hlt', -⟩ := List.getElem?_eq_some.1 hpr
    refine ⟨hlt', ?_⟩
    rw [hg]
    simp only [List.getD_eq_getElem?_getD, hpr, Option.getD_some]
    exact hpr2
  -- the mapped list in ascending order
  have hB : ((argsortAsc sims).map g) = sortedEnum.map (fun x => g x.1) := by
    rw [hargs, List.map_map]
    rfl
  have permB : ((argsortAsc sims).map g).Perm ps := by
    have p2 : (argsortAsc sims).Perm (sims.enum.map Prod.fst) := by
      rw [hargs]; exact p1.map Prod.fst
    rw [List.enum_map_fst] at p2
    have p3 : ((argsortAsc sims).map g).Perm ((List.range sims.length).map g) :=
      p2.map g
    rw [hlen] at p3
    rw [hg] at p3
    calc ((argsortAsc sims).map fun i => ps.getD i default).Perm _ := p3
      _ = ps := map_getD_range ps
  have s1 : List.Pairwise (fun a b : ℕ × ℚ => a.2 ≤ b.2) sortedEnum :=
    List.sorted_insertionSort _ _
  have nd1 : (sortedEnum.map Prod.snd).Nodup := by
    have : (sortedEnum.map Prod.snd).Perm (sims.enum.map Prod.snd) :=
      p1.map Prod.snd
    rw [List.enum_map_snd] at this
    exact this.nodup_iff.mpr (hsims ▸ hnd)
  have ndp : List.Pairwise (fun a b : ℕ × ℚ => a.2 ≠ b.2) sortedEnum :=
    List.pairwise_map.1 nd1
  have s2 : List.Pairwise (fun a b : ℕ × ℚ => a.2 < b.2) sortedEnum :=
    (s1.and ndp).imp fun h => lt_of_le_of_ne h.1 h.2
  have s3 : List.Pairwise (fun x y : ℕ × ℚ => (g x.1).2 < (g y.1).2) sortedEnum :=
    s2.imp_of_mem fun ha hb hr => by
      rw [(hmem _ ha).2, (hmem _ hb).2]; exact hr
  have s4 : List.Pairwise (fun a b : Place × ℚ => a.2 < b.2)
      (sortedEnum.map (fun x => g x.1)) :=
    List.Pairwise.map _ (fun a b h => h) s3
  -- descending side
  have t1 : List.Pairwise (fun a b : Place × ℚ => b.2 ≤ a.2) (sortPairsDesc ps) :=
    List.sorted_insertionSort _ _
  have permR : (sortPairsDesc ps).Perm ps := List.perm_insertionSort _ _
  have ndR : ((sortPairsDesc ps).map Prod.snd).Nodup :=
    (permR.map Prod.snd).nodup_iff.mpr hnd
  have ndRp : List.Pairwise (fun a b : Place × ℚ => a.2 ≠ b.2) (sortPairsDesc ps) :=
    List.pairwise_map.1 ndR
  have t2 : List.Pairwise (fun a b : Place × ℚ => b.2 < a.2) (sortPairsDesc ps) :=
    (t1.and ndRp).imp fun h => lt_of_le_of_ne h.1 h.2.symm
  -- assemble via uniqueness of sorted permutations
  have hrev : ((argsortAsc sims).reverse).map g = ((argsortAsc sims).map g).reverse :=
    List.map_reverse g (argsortAsc sims)
  rw [hrev]
  apply List.eq_of_perm_of_sorted (r := fun a b : Place × ℚ => b.2 < a.2)
  · exact ((argsortAsc sims).map g).reverse_perm.trans (permB.trans permR.symm)
  · rw [List.Sorted, List.pairwise_reverse, hB]
    exact s4
  · exact t2

/-- Reading the batch filterMap through valid indices is positional access
followed by the positivity filter. -/
theorem filterMap_batch_eq (cands : List PlaceEmbedding) (f : PlaceEmbedding → ℚ)
    (is : List Nat) (hvalid : ∀ i ∈ is, i < cands.length) :
    (is.filterMap fun idx =>
      match cands[idx]?, (cands.map f)[idx]? with
      | some e, some s => if 0 < s then some (e.place, s) else none
      | _, _ => none)
    = (is.map fun i =>
        (cands.map fun e => (e.place, f e)).getD i (default : Place × ℚ)).filter
        (fun pr => decide (0 < pr.2)) := by
  induction is with
  | nil => simp
  | cons i is ih =>
    have hi : i < cands.length := hvalid i (List.mem_cons_self i is)
    have htail : ∀ j ∈ is, j < cands.length :=
      fun j hj => hvalid j (List.mem_cons_of_mem _ hj)
    have h1 : cands[i]? = some cands[i] := List.getElem?_eq_getElem hi
    have h2 : (cands.map f)[i]? = some (f cands[i]) := by
      rw [List.getElem?_map, h1]
      rfl
    have h3 : ((cands.map fun e => (e.place, f e)).getD i default)
        = (cands[i].place, f cands[i]) := by
      rw [List.getD_eq_getElem _ _ (by simpa using hi), List.getElem_map]
    simp only [List.filterMap_cons, List.map_cons, List.filter_cons, h1, h2, h3]
    by_cases hs : 0 < f cands[i]
    · have hcond : decide (0 < f cands[i]) = true := decide_eq_true hs
      rw [if_pos hs, if_pos hcond, ih htail]
    · have hcond : ¬(decide (0 < f cands[i]) = true) := by simpa using hs
      rw [if_neg hs, if_neg hcond, ih htail]

/-- C9 counterexample: on a single candidate orthogonal to the query, the
baseline scalar hybrid search returns the candidate with score 0 while the
optimized batch search returns the empty list — the two searches do not
return the same ranked sequence. -/
theorem C9_counterexample :
    hybrid_search_optimized dbC9c id [1, 0] none [] [] 5 = []
      ∧ hybrid_search_core dbC9c id [1, 0] none [] [] 5 = [(pC9c, 0)] := by
  refine ⟨by with_unfolding_all decide, by with_unfolding_all decide⟩

/-- C9 amended: for every query vector, candidate set, filter sets and K —
when no user is supplied, every candidate vector has the query's length,
query and candidates have nonzero magnitude, and the similarity scores are
pairwise distinct — the optimized batch hybrid search returns exactly the
baseline scalar hybrid search's ranked sequence with its non-positive-score
entries removed. (With a user the two services also apply different
weighting formulas, and the baseline never filters non-positive scores, so
the original full-equivalence claim fails.) -/
theorem C9_amended_batch_refines (db : DB) (sqrt : ℚ → ℚ) (qv : List ℚ)
    (ef lf : List String) (topK : Nat)
    (hlen : ∀ e ∈ filterEmbeddings db.embeddings ef lf,
      e.vector.length = qv.length)
    (hq : sumSq qv ≠ 0)
    (hv : ∀ e ∈ filterEmbeddings db.embeddings ef lf, sumSq e.vector ≠ 0)
    (hnd : ((filterEmbeddings db.embeddings ef lf).map fun e =>
        batchCosine sqrt e.vector qv).Nodup) :
    hybrid_search_optimized db sqrt qv none ef lf topK
      = (hybrid_search_core db sqrt qv none ef lf topK).filter
          (fun pr => decide (0 < pr.2)) := by
  unfold hybrid_search_optimized hybrid_search_core
  set cands := filterEmbeddings db.embeddings ef lf with hc
  have hmapeq : (cands.map fun emb =>
        (emb.place, cosine_similarity sqrt qv emb.vector))
      = cands.map fun emb => (emb.place, batchCosine sqrt emb.vector qv) :=
    List.map_congr_left fun e he => by
      rw [cosine_eq_batchCosine sqrt qv e.vector (hlen e he) hq (hv e he)]
  simp only [hmapeq]
  unfold batch_similarity_calculation
  by_cases hemp : cands.isEmpty
  · have hnil : cands = [] := List.isEmpty_iff.1 hemp
    simp [hemp, hnil, sortPairsDesc]
  · simp only [hemp, Bool.false_eq_true, if_false]
    set f : PlaceEmbedding → ℚ := fun e => batchCosine sqrt e.vector qv with hf
    set sims := cands.map f with hsims
    set ps := cands.map fun e => (e.place, f e) with hps
    have hsnd : sims = ps.map Prod.snd := by
      rw [hsims, hps, List.map_map]
      rfl
    have hval : ∀ i ∈ ((argsortAsc sims).reverse).take topK, i < cands.length := by
      intro i hi
      have hi1 : i ∈ (argsortAsc sims).reverse :=
        (List.take_sublist _ _).subset hi
      have hi2 : i ∈ argsortAsc sims := List.mem_reverse.1 hi1
      obtain ⟨x, hx, rfl⟩ := List.mem_map.1 hi2
      have hx' : x ∈ sims.enum := (List.perm_insertionSort _ _).subset hx
      have hx2 : sims[x.1]? = some x.2 := List.mem_enum_iff_getElem?.1 hx'
      obtain ⟨hlt, -⟩ := List.getElem?_eq_some.1 hx2
      simpa [hsims] using hlt
    rw [filterMap_batch_eq cands f _ hval]
    rw [← hps]
    have hmt : (((argsortAsc sims).reverse).take topK).map
          (fun i => ps.getD i (default : Place × ℚ))
        = ((((argsortAsc sims).reverse).map
            (fun i => ps.getD i (default : Place × ℚ))).take topK) :=
      List.map_take _ _ _
    rw [hmt, hsnd, argsort_desc_eq ps (hsnd ▸ hnd)]

/-- Witness for C9 amended at two candidates with distinct positive
similarities. -/
theorem C9_amended_batch_refines_witness :
    hybrid_search_optimized dbC9w (fun _ => 1) [1, 0] none [] [] 5
      = (hybrid_search_core dbC9w (fun _ => 1) [1, 0] none [] [] 5).filter
          (fun pr => decide (0 < pr.2)) :=
  C9_amended_batch_refines dbC9w (fun _ => 1) [1, 0] [] [] 5
    (by with_unfolding_all decide) (by with_unfolding_all decide)
    (by with_unfolding_all decide) (by with_unfolding_all decide)

end Spotal
